import Mathlib

/-!
# Verification of the GPL pipeline orchestrator (`gpl/train.py`)

This file shallowly embeds the `train` function of `gpl/train.py`: a staged,
filesystem-driven pipeline (ensure corpus → query generation → hard-negative
mining → pseudo labeling → training → optional evaluation) in which every
stage is gated by an existence check on its expected output artifact.

The filesystem is modelled explicitly: a directory is an association list
from entry name to a `Nat` "content" (for plain files we read it as a size,
so `0` models an empty file; for the checkpoint directory it is the number
of entries inside).  The external collaborators invoked by the orchestrator
(`qgen`, `NegativeMiner`, `PseudoLabeler`, `resize` from `gpl/toolkit`,
`GenericDataLoader` from beir, `model.fit` from sentence-transformers) are
not part of the inspected source; their *effects on the artifact store* are
modelled from the spec (each stage "must produce that artifact as a
postcondition"), with the written contents left opaque as parameters of an
`Ext` oracle structure.  The embedded orchestrator returns the final
filesystem, the trace of stage executions, and the first raised error, if
any; an error does not roll back effects that happened before it, exactly
as a Python exception leaves earlier file writes in place.
-/

namespace GPL

/-- A directory listing: entry name paired with an opaque `Nat` content
(size of a file, or entry count of a subdirectory). -/
abbrev Dir := List (String × Nat)

/-- Membership test, modelling `name in os.listdir(d)`. -/
def hasFile (d : Dir) (name : String) : Bool :=
  d.any (fun e => e.1 = name)

/-- Content lookup: `none` models a missing entry. -/
def getFile (d : Dir) (name : String) : Option Nat :=
  match d with
  | [] => none
  | (n, x) :: rest => if n = name then some x else getFile rest name

/-- Write an entry: overwrite in place if present, append otherwise. -/
def setFile (d : Dir) (name : String) (v : Nat) : Dir :=
  match d with
  | [] => [(name, v)]
  | (n, x) :: rest =>
    if n = name then (name, v) :: rest else (n, x) :: setFile rest name v

/-- The observable filesystem state of one run. -/
structure FS where
  /-- Whether `path_to_generated_data` exists as a directory. -/
  genDirExists : Bool
  /-- Listing of `path_to_generated_data` (meaningful when it exists). -/
  genDir : Dir
  /-- Listing of `evaluation_data` (assumed to exist, as in every run the
  source supports). -/
  evalDir : Dir
  /-- The output tree: absolute paths under `output_dir` mapped to the
  number of entries inside (so `getFile` = `os.path.exists` + entry count,
  and content `0` models an existing but empty directory). -/
  outTree : Dir
deriving DecidableEq, Repr

/-- The configuration surface of `train` (`gpl/train.py`, lines 19-37),
restricted to the options the orchestration logic reads.  `qgen_pfx`
models the `qgen_prefix` keyword argument (renamed for Lean).
`evaluation_data_missing` models passing `evaluation_data=None`. -/
structure Config where
  output_dir : String
  do_evaluation : Bool := false
  evaluation_data_missing : Bool := false
  qgen_pfx : String := "qgen"
  pooling : String := "mean"
  batch_size_gpl : Nat := 32
  batch_size_generation : Nat := 32
  new_size : Option Nat := none
  queries_per_passage : Nat := 3
  gpl_steps : Nat := 140000
  retrievers : List String := ["msmarco-distilbert-base-v3", "msmarco-MiniLM-L-6-v3"]

/-- Errors the orchestrator can raise.  `assertionError` models a Python
`assert` failure; `loadError` models an exception escaping
`GenericDataLoader`; `retrieverLoadError` models the fatal failure of
`NegativeMiner` on an unloadable retrieval-signal identifier. -/
inductive Err where
  | assertionError (msg : String)
  | loadError (msg : String)
  | retrieverLoadError (name : String)
deriving DecidableEq, Repr

/-- Oracle for the external collaborators: outcome of loading the
evaluation dataset, loadability of each retrieval signal, and the opaque
contents each stage writes when it runs.  Modelled from the spec: each
stage, when executed, "must produce that artifact as a postcondition";
the concrete bytes are outside the inspected source. -/
structure Ext where
  /-- Outcome of `GenericDataLoader(evaluation_data)`: `none` = loads fine,
  `some e` = raises `e`. -/
  evalLoad : Option Err := none
  /-- Whether a retrieval-signal identifier can be loaded by the miner. -/
  retrieverLoadable : String → Bool := fun _ => true
  qgenQrelsContent : Nat := 1
  qgenQueriesContent : Nat := 1
  minedContent : Nat := 1
  labeledContent : Nat := 1
  trainedCkptEntries : Nat := 1
  resizedContent : Nat := 1

/-- One stage execution recorded in the trace. -/
inductive Event where
  | copyCorpus
  | resizeCorpus (newSize : Nat)
  | runQGen
  | runMiner
  | runPseudoLabeler (steps bsz : Nat)
  | runTraining (steps : Nat)
  | runEvaluate
deriving DecidableEq, Repr

/-- Result of running (part of) the pipeline: the filesystem after it, the
trace of executed stages, and the first error raised (with all effects
that preceded the error kept, as with a real exception). -/
structure RunResult where
  fs : FS
  evs : List Event
  err : Option Err
deriving DecidableEq, Repr

/-- Sequencing: run `k` only when no error has been raised yet; keep the
accumulated effects and trace either way. -/
def RunResult.andThen (r : RunResult) (k : FS → RunResult) : RunResult :=
  match r.err with
  | some _ => r
  | none => { fs := (k r.fs).fs, evs := r.evs ++ (k r.fs).evs, err := (k r.fs).err }

/-- Line 40: `assert pooling in ['mean', 'cls', 'max']`. -/
def check_pooling (cfg : Config) : Option Err :=
  if ["mean", "cls", "max"].contains cfg.pooling then none
  else some (.assertionError "pooling")

/-- Lines 41-47: when evaluation is requested, assert `evaluation_data`
is given and try `GenericDataLoader(evaluation_data)`, re-raising its
exception unmodified (`raise e`). -/
def check_evaluation (cfg : Config) (ext : Ext) : Option Err :=
  if cfg.do_evaluation then
    if cfg.evaluation_data_missing then some (.assertionError "evaluation data is None")
    else ext.evalLoad
  else none

/-- Line 51: `os.makedirs(path_to_generated_data, exist_ok=True)` — create
the directory (empty) when missing, leave it alone when present, never an
error. -/
def makedirsStep (fs : FS) : FS :=
  { fs with genDirExists := true, genDir := if fs.genDirExists then fs.genDir else [] }

/-- Lines 52-59: if `corpus.jsonl` is not in the generated-data directory,
assert it exists in the evaluation path, then bring it over by `resize`
(when `new_size` is given) or by `cp` (otherwise).  The written corpus
content is the resize oracle's output, respectively the copied file's
content. -/
def ensure_corpus (cfg : Config) (ext : Ext) (fs : FS) : RunResult :=
  if hasFile fs.genDir "corpus.jsonl" then { fs := fs, evs := [], err := none }
  else if hasFile fs.evalDir "corpus.jsonl" then
    match cfg.new_size with
    | some n =>
      { fs := { fs with genDir := setFile fs.genDir "corpus.jsonl" ext.resizedContent },
        evs := [.resizeCorpus n], err := none }
    | none =>
      let copied := setFile fs.genDir "corpus.jsonl" ((getFile fs.evalDir "corpus.jsonl").getD 0)
      { fs := { fs with genDir := copied }, evs := [.copyCorpus], err := none }
  else { fs := fs, evs := [], err := some (.assertionError "No corpus found in evaluation path") }

/-- Lines 63-70: query generation, skipped exactly when both
`{qgen_prefix}-qrels` and `{qgen_prefix}-queries.jsonl` are present;
otherwise assert the corpus exists and run `qgen`, which writes both
artifacts.  (The `GenericDataLoader(...).load` call in both branches only
reads; it is not modelled as an effect.) -/
def generate_queries (cfg : Config) (ext : Ext) (fs : FS) : RunResult :=
  if hasFile fs.genDir (cfg.qgen_pfx ++ "-qrels")
      && hasFile fs.genDir (cfg.qgen_pfx ++ "-queries.jsonl") then
    { fs := fs, evs := [], err := none }
  else if hasFile fs.genDir "corpus.jsonl" then
    let written := setFile (setFile fs.genDir (cfg.qgen_pfx ++ "-qrels") ext.qgenQrelsContent)
      (cfg.qgen_pfx ++ "-queries.jsonl") ext.qgenQueriesContent
    { fs := { fs with genDir := written }, evs := [.runQGen], err := none }
  else { fs := fs, evs := [], err := some (.assertionError "At least corpus should exist!") }

/-- Lines 74-79: hard-negative mining, skipped exactly when
`hard-negatives.jsonl` is present.  Modelled from the spec: constructing
`NegativeMiner` fails fatally when a retrieval-signal identifier cannot be
loaded, before any partial artifact is written; otherwise `miner.run()`
writes the artifact. -/
def mine_negatives (cfg : Config) (ext : Ext) (fs : FS) : RunResult :=
  if hasFile fs.genDir "hard-negatives.jsonl" then { fs := fs, evs := [], err := none }
  else if cfg.retrievers.all ext.retrieverLoadable then
    { fs := { fs with genDir := setFile fs.genDir "hard-negatives.jsonl" ext.minedContent },
      evs := [.runMiner], err := none }
  else
    { fs := fs, evs := [],
      err := some (.retrieverLoadError
        ((cfg.retrievers.find? (fun r => !ext.retrieverLoadable r)).getD "")) }

/-- Lines 83-88: pseudo labeling, skipped exactly when
`gpl-training-data.tsv` is present; otherwise `PseudoLabeler(...,
gpl_steps, batch_size_gpl, ...).run()` writes it. -/
def pseudo_label (cfg : Config) (ext : Ext) (fs : FS) : RunResult :=
  if hasFile fs.genDir "gpl-training-data.tsv" then { fs := fs, evs := [], err := none }
  else
    { fs := { fs with genDir := setFile fs.genDir "gpl-training-data.tsv" ext.labeledContent },
      evs := [.runPseudoLabeler cfg.gpl_steps cfg.batch_size_gpl], err := none }

/-- Model of `os.path.join(a, b)` for a relative second component. -/
def ospath_join (a b : String) : String :=
  if a = "" then b
  else if a.endsWith "/" then a ++ b
  else a ++ "/" ++ b

/-- Line 93: `ckpt_dir = os.path.join(output_dir, str(gpl_steps))`. -/
def ckptDir (cfg : Config) : String :=
  ospath_join cfg.output_dir (Nat.repr cfg.gpl_steps)

/-- Lines 94-120: training runs iff the checkpoint directory does not
exist or exists but is empty (`not os.path.exists(ckpt_dir) or
(os.path.exists(ckpt_dir) and not os.listdir(ckpt_dir))`).  Modelled from
the spec: `model.fit` produces the checkpoint directory for the configured
step count as a postcondition. -/
def train_stage (cfg : Config) (ext : Ext) (fs : FS) : RunResult :=
  if !hasFile fs.outTree (ckptDir cfg) || (getFile fs.outTree (ckptDir cfg)).getD 0 = 0 then
    { fs := { fs with outTree := setFile fs.outTree (ckptDir cfg) ext.trainedCkptEntries },
      evs := [.runTraining cfg.gpl_steps], err := none }
  else { fs := fs, evs := [], err := none }

/-- Lines 123-132: optional terminal evaluation (reads the checkpoint,
writes nothing into the modelled artifact store). -/
def evaluate_stage (cfg : Config) (fs : FS) : RunResult :=
  if cfg.do_evaluation then { fs := fs, evs := [.runEvaluate], err := none }
  else { fs := fs, evs := [], err := none }

/-- The orchestrator `train` (`gpl/train.py`, lines 19-132): the two
up-front checks, then `makedirs`, then the five stages and the optional
evaluation, sequenced so that an error stops everything after it while
keeping the effects before it. -/
def train (cfg : Config) (ext : Ext) (fs : FS) : RunResult :=
  match check_pooling cfg with
  | some e => { fs := fs, evs := [], err := some e }
  | none =>
    match check_evaluation cfg ext with
    | some e => { fs := fs, evs := [], err := some e }
    | none =>
      (({ fs := makedirsStep fs, evs := [], err := none } : RunResult).andThen
            (ensure_corpus cfg ext)).andThen
          (generate_queries cfg ext) |>.andThen
        (mine_negatives cfg ext) |>.andThen
      (pseudo_label cfg ext) |>.andThen
      (train_stage cfg ext) |>.andThen
      (evaluate_stage cfg)

/-! ## Basic lemmas about the directory model -/

theorem getFile_setFile_same (d : Dir) (name : String) (v : Nat) :
    getFile (setFile d name v) name = some v := by
  induction d with
  | nil => simp [setFile, getFile]
  | cons e rest ih =>
    obtain ⟨n, x⟩ := e
    by_cases h : n = name
    · simp [setFile, getFile, h]
    · simpa [setFile, getFile, h] using ih

theorem getFile_setFile_ne (d : Dir) (name other : String) (v : Nat) (h : other ≠ name) :
    getFile (setFile d name v) other = getFile d other := by
  induction d with
  | nil => simp [setFile, getFile, Ne.symm h]
  | cons e rest ih =>
    obtain ⟨n, x⟩ := e
    by_cases hn : n = name
    · subst hn
      simp [setFile, getFile, Ne.symm h]
    · by_cases ho : n = other <;> simp [setFile, getFile, hn, ho, ih, h]

theorem hasFile_eq_isSome_getFile (d : Dir) (name : String) :
    hasFile d name = (getFile d name).isSome := by
  induction d with
  | nil => simp [hasFile, getFile]
  | cons e rest ih =>
    obtain ⟨n, x⟩ := e
    by_cases h : n = name <;> simp [hasFile, getFile, h] at ih ⊢ <;> simpa using ih

theorem hasFile_nil (name : String) : hasFile [] name = false := rfl

theorem hasFile_setFile_same (d : Dir) (name : String) (v : Nat) :
    hasFile (setFile d name v) name = true := by
  simp [hasFile_eq_isSome_getFile, getFile_setFile_same]

theorem hasFile_setFile_ne (d : Dir) (name other : String) (v : Nat) (h : other ≠ name) :
    hasFile (setFile d name v) other = hasFile d other := by
  simp [hasFile_eq_isSome_getFile, getFile_setFile_ne d name other v h]

/-! ## Per-stage characterizations -/

/-- The makedirs step with `exist_ok=True` leaves an existing directory alone. -/
theorem makedirsStep_of_exists (fs : FS) (h : fs.genDirExists = true) :
    makedirsStep fs = fs := by
  cases fs
  simp_all [makedirsStep]

theorem makedirsStep_of_missing (fs : FS) (h : fs.genDirExists = false) :
    makedirsStep fs = { fs with genDirExists := true, genDir := [] } := by
  simp [makedirsStep, h]

/-- The ensure-corpus step is a no-op exactly when the corpus is already in
the generated-data directory. -/
theorem ensure_corpus_skip_iff (cfg : Config) (ext : Ext) (fs : FS) :
    ensure_corpus cfg ext fs = ⟨fs, [], none⟩ ↔
      hasFile fs.genDir "corpus.jsonl" = true := by
  unfold ensure_corpus
  split
  · simp [*]
  · split
    · split <;> simp_all
    · simp_all

theorem generate_queries_skip_iff (cfg : Config) (ext : Ext) (fs : FS) :
    generate_queries cfg ext fs = ⟨fs, [], none⟩ ↔
      (hasFile fs.genDir (cfg.qgen_pfx ++ "-qrels")
        && hasFile fs.genDir (cfg.qgen_pfx ++ "-queries.jsonl")) = true := by
  unfold generate_queries
  split
  · simp_all
  · split <;> simp_all

theorem mine_negatives_skip_iff (cfg : Config) (ext : Ext) (fs : FS) :
    mine_negatives cfg ext fs = ⟨fs, [], none⟩ ↔
      hasFile fs.genDir "hard-negatives.jsonl" = true := by
  unfold mine_negatives
  split
  · simp_all
  · split <;> simp_all

theorem pseudo_label_skip_iff (cfg : Config) (ext : Ext) (fs : FS) :
    pseudo_label cfg ext fs = ⟨fs, [], none⟩ ↔
      hasFile fs.genDir "gpl-training-data.tsv" = true := by
  unfold pseudo_label
  split <;> simp_all

theorem train_stage_skip_iff (cfg : Config) (ext : Ext) (fs : FS) :
    train_stage cfg ext fs = ⟨fs, [], none⟩ ↔
      (hasFile fs.outTree (ckptDir cfg) = true
        ∧ (getFile fs.outTree (ckptDir cfg)).getD 0 ≠ 0) := by
  unfold train_stage
  cases hb : hasFile fs.outTree (ckptDir cfg) with
  | false => simp [hb]
  | true =>
    by_cases hz : (getFile fs.outTree (ckptDir cfg)).getD 0 = 0 <;> simp [hb, hz]

theorem ensure_corpus_of_present (cfg : Config) (ext : Ext) (fs : FS)
    (h : hasFile fs.genDir "corpus.jsonl" = true) :
    ensure_corpus cfg ext fs = ⟨fs, [], none⟩ :=
  (ensure_corpus_skip_iff cfg ext fs).2 h

theorem generate_queries_of_present (cfg : Config) (ext : Ext) (fs : FS)
    (h1 : hasFile fs.genDir (cfg.qgen_pfx ++ "-qrels") = true)
    (h2 : hasFile fs.genDir (cfg.qgen_pfx ++ "-queries.jsonl") = true) :
    generate_queries cfg ext fs = ⟨fs, [], none⟩ :=
  (generate_queries_skip_iff cfg ext fs).2 (by simp [h1, h2])

theorem mine_negatives_of_present (cfg : Config) (ext : Ext) (fs : FS)
    (h : hasFile fs.genDir "hard-negatives.jsonl" = true) :
    mine_negatives cfg ext fs = ⟨fs, [], none⟩ :=
  (mine_negatives_skip_iff cfg ext fs).2 h

theorem pseudo_label_of_present (cfg : Config) (ext : Ext) (fs : FS)
    (h : hasFile fs.genDir "gpl-training-data.tsv" = true) :
    pseudo_label cfg ext fs = ⟨fs, [], none⟩ :=
  (pseudo_label_skip_iff cfg ext fs).2 h

theorem pseudo_label_of_absent (cfg : Config) (ext : Ext) (fs : FS)
    (h : hasFile fs.genDir "gpl-training-data.tsv" = false) :
    pseudo_label cfg ext fs =
      ⟨{ fs with genDir := setFile fs.genDir "gpl-training-data.tsv" ext.labeledContent },
        [.runPseudoLabeler cfg.gpl_steps cfg.batch_size_gpl], none⟩ := by
  simp [pseudo_label, h]

theorem train_stage_err (cfg : Config) (ext : Ext) (fs : FS) :
    (train_stage cfg ext fs).err = none := by
  unfold train_stage
  split <;> rfl

theorem train_stage_genDir (cfg : Config) (ext : Ext) (fs : FS) :
    (train_stage cfg ext fs).fs.genDir = fs.genDir := by
  unfold train_stage
  split <;> rfl

theorem train_stage_evalDir (cfg : Config) (ext : Ext) (fs : FS) :
    (train_stage cfg ext fs).fs.evalDir = fs.evalDir := by
  unfold train_stage
  split <;> rfl

theorem train_stage_evs (cfg : Config) (ext : Ext) (fs : FS) :
    (train_stage cfg ext fs).evs = []
      ∨ (train_stage cfg ext fs).evs = [.runTraining cfg.gpl_steps] := by
  unfold train_stage
  split
  · exact Or.inr rfl
  · exact Or.inl rfl

theorem evaluate_stage_fs (cfg : Config) (fs : FS) :
    (evaluate_stage cfg fs).fs = fs := by
  unfold evaluate_stage
  split <;> rfl

theorem evaluate_stage_err (cfg : Config) (fs : FS) :
    (evaluate_stage cfg fs).err = none := by
  unfold evaluate_stage
  split <;> rfl

theorem evaluate_stage_evs (cfg : Config) (fs : FS) :
    (evaluate_stage cfg fs).evs = [] ∨ (evaluate_stage cfg fs).evs = [.runEvaluate] := by
  unfold evaluate_stage
  split
  · exact Or.inr rfl
  · exact Or.inl rfl

theorem andThen_none (fs : FS) (evs : List Event) (k : FS → RunResult) :
    (⟨fs, evs, none⟩ : RunResult).andThen k =
      ⟨(k fs).fs, evs ++ (k fs).evs, (k fs).err⟩ := rfl

theorem andThen_some (fs : FS) (evs : List Event) (e : Err) (k : FS → RunResult) :
    (⟨fs, evs, some e⟩ : RunResult).andThen k = ⟨fs, evs, some e⟩ := rfl

/-- After the two successful up-front checks, `train` is the stage chain. -/
theorem train_eq_chain (cfg : Config) (ext : Ext) (fs : FS)
    (h1 : check_pooling cfg = none) (h2 : check_evaluation cfg ext = none) :
    train cfg ext fs =
      (((((({ fs := makedirsStep fs, evs := [], err := none } : RunResult).andThen
        (ensure_corpus cfg ext)).andThen
        (generate_queries cfg ext)).andThen
        (mine_negatives cfg ext)).andThen
        (pseudo_label cfg ext)).andThen
        (train_stage cfg ext)).andThen
        (evaluate_stage cfg) := by
  simp [train, h1, h2]

/-! ## Artifact-name disjointness -/

theorem append_ne_of_lt_length (p s t : String) (h : t.length < s.length) : p ++ s ≠ t := by
  intro he
  have hl := congrArg String.length he
  rw [String.length_append] at hl
  omega

theorem append_ne_of_ne_suffix (p s t : String)
    (hs : t.data.drop (t.data.length - s.data.length) ≠ s.data) : p ++ s ≠ t := by
  intro he
  refine hs ?_
  have hd := congrArg String.data he
  rw [String.data_append] at hd
  rw [← hd, List.length_append]
  have hsub : p.data.length + s.data.length - s.data.length = p.data.length := by omega
  rw [hsub]
  exact List.drop_left p.data s.data

theorem append_ne_append_of_ne (p a b : String) (h : a ≠ b) : p ++ a ≠ p ++ b := by
  intro he
  have hd := congrArg String.data he
  rw [String.data_append, String.data_append] at hd
  exact h (String.ext (List.append_cancel_left hd))

theorem qrels_ne_corpus (p : String) : p ++ "-qrels" ≠ "corpus.jsonl" :=
  append_ne_of_ne_suffix p _ _ (by decide)

theorem queries_ne_corpus (p : String) : p ++ "-queries.jsonl" ≠ "corpus.jsonl" :=
  append_ne_of_lt_length p _ _ (by decide)

theorem qrels_ne_hn (p : String) : p ++ "-qrels" ≠ "hard-negatives.jsonl" :=
  append_ne_of_ne_suffix p _ _ (by decide)

theorem queries_ne_hn (p : String) : p ++ "-queries.jsonl" ≠ "hard-negatives.jsonl" :=
  append_ne_of_ne_suffix p _ _ (by decide)

theorem qrels_ne_gpl (p : String) : p ++ "-qrels" ≠ "gpl-training-data.tsv" :=
  append_ne_of_ne_suffix p _ _ (by decide)

theorem queries_ne_gpl (p : String) : p ++ "-queries.jsonl" ≠ "gpl-training-data.tsv" :=
  append_ne_of_ne_suffix p _ _ (by decide)

theorem qrels_ne_queries (p : String) : p ++ "-qrels" ≠ p ++ "-queries.jsonl" :=
  append_ne_append_of_ne p _ _ (by decide)

/-! ## Frame facts: which state components each stage can touch -/

theorem hasFile_setFile_of_hasFile (d : Dir) (name other : String) (v : Nat)
    (h : hasFile d other = true) : hasFile (setFile d name v) other = true := by
  by_cases ho : other = name
  · subst ho; exact hasFile_setFile_same d other v
  · rw [hasFile_setFile_ne d name other v ho]; exact h

theorem ensure_corpus_frame (cfg : Config) (ext : Ext) (s : FS) :
    (ensure_corpus cfg ext s).fs.genDirExists = s.genDirExists
      ∧ (ensure_corpus cfg ext s).fs.evalDir = s.evalDir
      ∧ (ensure_corpus cfg ext s).fs.outTree = s.outTree := by
  unfold ensure_corpus
  split
  · exact ⟨rfl, rfl, rfl⟩
  · split
    · split <;> exact ⟨rfl, rfl, rfl⟩
    · exact ⟨rfl, rfl, rfl⟩

theorem generate_queries_frame (cfg : Config) (ext : Ext) (s : FS) :
    (generate_queries cfg ext s).fs.genDirExists = s.genDirExists
      ∧ (generate_queries cfg ext s).fs.evalDir = s.evalDir
      ∧ (generate_queries cfg ext s).fs.outTree = s.outTree := by
  unfold generate_queries
  split
  · exact ⟨rfl, rfl, rfl⟩
  · split <;> exact ⟨rfl, rfl, rfl⟩

theorem mine_negatives_frame (cfg : Config) (ext : Ext) (s : FS) :
    (mine_negatives cfg ext s).fs.genDirExists = s.genDirExists
      ∧ (mine_negatives cfg ext s).fs.evalDir = s.evalDir
      ∧ (mine_negatives cfg ext s).fs.outTree = s.outTree := by
  unfold mine_negatives
  split
  · exact ⟨rfl, rfl, rfl⟩
  · split <;> exact ⟨rfl, rfl, rfl⟩

theorem pseudo_label_frame (cfg : Config) (ext : Ext) (s : FS) :
    (pseudo_label cfg ext s).fs.genDirExists = s.genDirExists
      ∧ (pseudo_label cfg ext s).fs.evalDir = s.evalDir
      ∧ (pseudo_label cfg ext s).fs.outTree = s.outTree := by
  unfold pseudo_label
  split <;> exact ⟨rfl, rfl, rfl⟩

theorem train_stage_frame (cfg : Config) (ext : Ext) (s : FS) :
    (train_stage cfg ext s).fs.genDirExists = s.genDirExists
      ∧ (train_stage cfg ext s).fs.evalDir = s.evalDir
      ∧ (train_stage cfg ext s).fs.genDir = s.genDir := by
  unfold train_stage
  split <;> exact ⟨rfl, rfl, rfl⟩

/-! ## Content preservation on the generated-data directory -/

theorem ensure_corpus_getFile (cfg : Config) (ext : Ext) (s : FS) (name : String)
    (h : name ≠ "corpus.jsonl") :
    getFile (ensure_corpus cfg ext s).fs.genDir name = getFile s.genDir name := by
  unfold ensure_corpus
  split
  · rfl
  · split
    · split
      · exact getFile_setFile_ne s.genDir _ name _ h
      · exact getFile_setFile_ne s.genDir _ name _ h
    · rfl

theorem generate_queries_getFile (cfg : Config) (ext : Ext) (s : FS) (name : String)
    (h1 : name ≠ cfg.qgen_pfx ++ "-qrels") (h2 : name ≠ cfg.qgen_pfx ++ "-queries.jsonl") :
    getFile (generate_queries cfg ext s).fs.genDir name = getFile s.genDir name := by
  unfold generate_queries
  split
  · rfl
  · split
    · show getFile (setFile (setFile s.genDir _ _) _ _) name = _
      rw [getFile_setFile_ne _ _ name _ h2, getFile_setFile_ne _ _ name _ h1]
    · rfl

theorem mine_negatives_getFile (cfg : Config) (ext : Ext) (s : FS) (name : String)
    (h : name ≠ "hard-negatives.jsonl") :
    getFile (mine_negatives cfg ext s).fs.genDir name = getFile s.genDir name := by
  unfold mine_negatives
  split
  · rfl
  · split
    · exact getFile_setFile_ne s.genDir _ name _ h
    · rfl

theorem pseudo_label_getFile (cfg : Config) (ext : Ext) (s : FS) (name : String)
    (h : name ≠ "gpl-training-data.tsv") :
    getFile (pseudo_label cfg ext s).fs.genDir name = getFile s.genDir name := by
  unfold pseudo_label
  split
  · rfl
  · exact getFile_setFile_ne s.genDir _ name _ h

/-! ## Presence is monotone: no stage deletes an entry -/

theorem ensure_corpus_mono (cfg : Config) (ext : Ext) (s : FS) (name : String)
    (h : hasFile s.genDir name = true) :
    hasFile (ensure_corpus cfg ext s).fs.genDir name = true := by
  unfold ensure_corpus
  split
  · exact h
  · split
    · split
      · exact hasFile_setFile_of_hasFile s.genDir _ name _ h
      · exact hasFile_setFile_of_hasFile s.genDir _ name _ h
    · exact h

theorem generate_queries_mono (cfg : Config) (ext : Ext) (s : FS) (name : String)
    (h : hasFile s.genDir name = true) :
    hasFile (generate_queries cfg ext s).fs.genDir name = true := by
  unfold generate_queries
  split
  · exact h
  · split
    · exact hasFile_setFile_of_hasFile _ _ name _ (hasFile_setFile_of_hasFile _ _ name _ h)
    · exact h

theorem mine_negatives_mono (cfg : Config) (ext : Ext) (s : FS) (name : String)
    (h : hasFile s.genDir name = true) :
    hasFile (mine_negatives cfg ext s).fs.genDir name = true := by
  unfold mine_negatives
  split
  · exact h
  · split
    · exact hasFile_setFile_of_hasFile s.genDir _ name _ h
    · exact h

theorem pseudo_label_mono (cfg : Config) (ext : Ext) (s : FS) (name : String)
    (h : hasFile s.genDir name = true) :
    hasFile (pseudo_label cfg ext s).fs.genDir name = true := by
  unfold pseudo_label
  split
  · exact h
  · exact hasFile_setFile_of_hasFile s.genDir _ name _ h

/-! ## Stage postconditions -/

theorem ensure_corpus_post (cfg : Config) (ext : Ext) (s : FS)
    (h : (ensure_corpus cfg ext s).err = none) :
    hasFile (ensure_corpus cfg ext s).fs.genDir "corpus.jsonl" = true := by
  unfold ensure_corpus at h ⊢
  by_cases hc : hasFile s.genDir "corpus.jsonl" = true
  · simpa [hc] using hc
  · rw [Bool.not_eq_true] at hc
    by_cases he : hasFile s.evalDir "corpus.jsonl" = true
    · cases hn : cfg.new_size <;> simp [hc, he, hn, hasFile_setFile_same]
    · rw [Bool.not_eq_true] at he
      simp [hc, he] at h

theorem generate_queries_post (cfg : Config) (ext : Ext) (s : FS)
    (h : (generate_queries cfg ext s).err = none) :
    hasFile (generate_queries cfg ext s).fs.genDir (cfg.qgen_pfx ++ "-qrels") = true
      ∧ hasFile (generate_queries cfg ext s).fs.genDir (cfg.qgen_pfx ++ "-queries.jsonl") = true := by
  unfold generate_queries at h ⊢
  by_cases hq : (hasFile s.genDir (cfg.qgen_pfx ++ "-qrels")
      && hasFile s.genDir (cfg.qgen_pfx ++ "-queries.jsonl")) = true
  · rw [if_pos hq]
    have hq2 := hq
    simp only [Bool.and_eq_true] at hq2
    exact ⟨hq2.1, hq2.2⟩
  · rw [if_neg hq] at h ⊢
    by_cases hc : hasFile s.genDir "corpus.jsonl" = true
    · rw [if_pos hc]
      constructor
      · exact hasFile_setFile_of_hasFile _ _ _ _ (hasFile_setFile_same _ _ _)
      · exact hasFile_setFile_same _ _ _
    · rw [if_neg hc] at h
      exact absurd h (by simp)

theorem mine_negatives_post (cfg : Config) (ext : Ext) (s : FS)
    (h : (mine_negatives cfg ext s).err = none) :
    hasFile (mine_negatives cfg ext s).fs.genDir "hard-negatives.jsonl" = true := by
  unfold mine_negatives at h ⊢
  by_cases hc : hasFile s.genDir "hard-negatives.jsonl" = true
  · simpa [hc] using hc
  · rw [if_neg hc] at h ⊢
    by_cases hr : cfg.retrievers.all ext.retrieverLoadable = true
    · rw [if_pos hr]
      exact hasFile_setFile_same _ _ _
    · rw [if_neg hr] at h
      exact absurd h (by simp)

theorem pseudo_label_err (cfg : Config) (ext : Ext) (s : FS) :
    (pseudo_label cfg ext s).err = none := by
  unfold pseudo_label
  split <;> rfl

theorem pseudo_label_post (cfg : Config) (ext : Ext) (s : FS) :
    hasFile (pseudo_label cfg ext s).fs.genDir "gpl-training-data.tsv" = true := by
  unfold pseudo_label
  split
  · assumption
  · exact hasFile_setFile_same _ _ _

theorem train_stage_post (cfg : Config) (ext : Ext) (s : FS) :
    hasFile (train_stage cfg ext s).fs.outTree (ckptDir cfg) = true := by
  unfold train_stage
  split
  · exact hasFile_setFile_same _ _ _
  · rename_i h
    simp only [Bool.or_eq_true, Bool.not_eq_true', decide_eq_true_eq, not_or] at h
    cases hb : hasFile s.outTree (ckptDir cfg)
    · exact absurd hb h.1
    · rfl

/-! ## Trace shapes -/

theorem ensure_corpus_evs_cases (cfg : Config) (ext : Ext) (s : FS) :
    (ensure_corpus cfg ext s).evs = []
      ∨ ((ensure_corpus cfg ext s).evs = [.copyCorpus]
          ∧ hasFile s.genDir "corpus.jsonl" = false ∧ cfg.new_size = none)
      ∨ (∃ n, (ensure_corpus cfg ext s).evs = [.resizeCorpus n]
          ∧ hasFile s.genDir "corpus.jsonl" = false ∧ cfg.new_size = some n) := by
  unfold ensure_corpus
  split
  · exact Or.inl rfl
  · rename_i hc
    split
    · split
      · rename_i n hn
        exact Or.inr (Or.inr ⟨n, rfl, Bool.not_eq_true _ ▸ hc, hn⟩)
      · rename_i hn
        exact Or.inr (Or.inl ⟨rfl, Bool.not_eq_true _ ▸ hc, hn⟩)
    · exact Or.inl rfl

theorem generate_queries_evs (cfg : Config) (ext : Ext) (s : FS) :
    (generate_queries cfg ext s).evs = [] ∨ (generate_queries cfg ext s).evs = [.runQGen] := by
  unfold generate_queries
  split
  · exact Or.inl rfl
  · split
    · exact Or.inr rfl
    · exact Or.inl rfl

theorem mine_negatives_evs (cfg : Config) (ext : Ext) (s : FS) :
    (mine_negatives cfg ext s).evs = [] ∨ (mine_negatives cfg ext s).evs = [.runMiner] := by
  unfold mine_negatives
  split
  · exact Or.inl rfl
  · split
    · exact Or.inr rfl
    · exact Or.inl rfl

theorem pseudo_label_evs (cfg : Config) (ext : Ext) (s : FS) :
    (pseudo_label cfg ext s).evs = []
      ∨ (pseudo_label cfg ext s).evs = [.runPseudoLabeler cfg.gpl_steps cfg.batch_size_gpl] := by
  unfold pseudo_label
  split
  · exact Or.inl rfl
  · exact Or.inr rfl

/-! ## Sequencing accessors -/

theorem mem_andThen_evs (r : RunResult) (k : FS → RunResult) (e : Event) :
    e ∈ (r.andThen k).evs ↔ e ∈ r.evs ∨ (r.err = none ∧ e ∈ (k r.fs).evs) := by
  unfold RunResult.andThen
  cases h : r.err <;> simp [h]

theorem andThen_err_none_iff (r : RunResult) (k : FS → RunResult) :
    (r.andThen k).err = none ↔ (r.err = none ∧ (k r.fs).err = none) := by
  unfold RunResult.andThen
  cases h : r.err <;> simp [h]

theorem andThen_fs_of_none (r : RunResult) (k : FS → RunResult) (h : r.err = none) :
    (r.andThen k).fs = (k r.fs).fs := by
  unfold RunResult.andThen
  rw [h]

theorem andThen_evs_of_none (r : RunResult) (k : FS → RunResult) (h : r.err = none) :
    (r.andThen k).evs = r.evs ++ (k r.fs).evs := by
  unfold RunResult.andThen
  rw [h]

/-! ## Concrete inputs for counterexamples and witnesses -/

/-- A minimal valid configuration. -/
def cfgEx : Config := { output_dir := "output" }

/-- A fully successful external-collaborator oracle. -/
def extEx : Ext := {}

/-- A generated-data directory holding the corpus, both query-generation
artifacts, and an existing but EMPTY `hard-negatives.jsonl`. -/
def fsEmptyHN : FS :=
  { genDirExists := true
    genDir := [("corpus.jsonl", 5), ("qgen-qrels", 1), ("qgen-queries.jsonl", 2),
               ("hard-negatives.jsonl", 0)]
    evalDir := [("corpus.jsonl", 9)]
    outTree := [] }

/-- C1, counterexample: the claim predicates skipping on the artifact
existing AND being non-empty, but with an existing, empty (content `0`)
`hard-negatives.jsonl` the mining stage is nonetheless skipped entirely —
the check at line 74 is bare membership in `os.listdir`. -/
theorem C1_counterexample :
    mine_negatives cfgEx extEx fsEmptyHN = ⟨fsEmptyHN, [], none⟩
      ∧ getFile fsEmptyHN.genDir "hard-negatives.jsonl" = some 0 := by
  constructor <;> rfl

/-- C1, amended: a stage is skipped entirely (no recomputation, no side
effects, no error, filesystem unchanged) precisely when its output
artifact EXISTS — emptiness of the file artifacts is never checked: query
generation iff both `{prefix}-qrels` and `{prefix}-queries.jsonl` exist,
mining iff `hard-negatives.jsonl` exists, pseudo-labeling iff
`gpl-training-data.tsv` exists; only the train stage also requires its
checkpoint directory to be non-empty. -/
theorem C1_stage_skip_iff_artifact_exists (cfg : Config) (ext : Ext) (fs : FS) :
    (generate_queries cfg ext fs = ⟨fs, [], none⟩ ↔
        (hasFile fs.genDir (cfg.qgen_pfx ++ "-qrels")
          && hasFile fs.genDir (cfg.qgen_pfx ++ "-queries.jsonl")) = true)
      ∧ (mine_negatives cfg ext fs = ⟨fs, [], none⟩ ↔
          hasFile fs.genDir "hard-negatives.jsonl" = true)
      ∧ (pseudo_label cfg ext fs = ⟨fs, [], none⟩ ↔
          hasFile fs.genDir "gpl-training-data.tsv" = true)
      ∧ (train_stage cfg ext fs = ⟨fs, [], none⟩ ↔
          (hasFile fs.outTree (ckptDir cfg) = true
            ∧ (getFile fs.outTree (ckptDir cfg)).getD 0 ≠ 0)) :=
  ⟨generate_queries_skip_iff cfg ext fs, mine_negatives_skip_iff cfg ext fs,
    pseudo_label_skip_iff cfg ext fs, train_stage_skip_iff cfg ext fs⟩

/-- A generated-data directory that exists but has no corpus; the
evaluation directory has one (content `9`). -/
def fsNoCorpus : FS :=
  { genDirExists := true
    genDir := []
    evalDir := [("corpus.jsonl", 9)]
    outTree := [] }

/-- C6: if `corpus.jsonl` is absent from the generated-data directory it
must exist under the evaluation-data path (else the run aborts with the
assertion), and it is brought over by `resize` when a target count is
configured and by a verbatim copy otherwise; if it is already present,
nothing is copied and the step is a complete no-op. -/
theorem C6_ensure_corpus_behavior (cfg : Config) (ext : Ext) (fs : FS) :
    (hasFile fs.genDir "corpus.jsonl" = true → ensure_corpus cfg ext fs = ⟨fs, [], none⟩)
      ∧ (hasFile fs.genDir "corpus.jsonl" = false → hasFile fs.evalDir "corpus.jsonl" = false →
          ensure_corpus cfg ext fs =
            ⟨fs, [], some (.assertionError "No corpus found in evaluation path")⟩)
      ∧ (∀ n, hasFile fs.genDir "corpus.jsonl" = false →
          hasFile fs.evalDir "corpus.jsonl" = true → cfg.new_size = some n →
          ensure_corpus cfg ext fs =
            ⟨{ fs with genDir := setFile fs.genDir "corpus.jsonl" ext.resizedContent },
              [.resizeCorpus n], none⟩)
      ∧ (hasFile fs.genDir "corpus.jsonl" = false → hasFile fs.evalDir "corpus.jsonl" = true →
          cfg.new_size = none →
          ensure_corpus cfg ext fs =
            ⟨{ fs with genDir := setFile fs.genDir "corpus.jsonl" ((getFile fs.evalDir "corpus.jsonl").getD 0) }, [.copyCorpus], none⟩) := by
  refine ⟨fun h => ensure_corpus_of_present cfg ext fs h,
    fun h1 h2 => ?_, fun n h1 h2 h3 => ?_, fun h1 h2 h3 => ?_⟩
  · simp [ensure_corpus, h1, h2]
  · simp [ensure_corpus, h1, h2, h3]
  · simp [ensure_corpus, h1, h2, h3]

/-- C6, witness: on a directory that already has the corpus the step is a
no-op, and on an empty directory with no resize target the corpus is
copied from the evaluation path. -/
theorem C6_witness :
    ensure_corpus cfgEx extEx fsEmptyHN = ⟨fsEmptyHN, [], none⟩
      ∧ ensure_corpus cfgEx extEx fsNoCorpus =
          ⟨{ fsNoCorpus with genDir := setFile fsNoCorpus.genDir "corpus.jsonl" ((getFile fsNoCorpus.evalDir "corpus.jsonl").getD 0) }, [.copyCorpus], none⟩ :=
  ⟨(C6_ensure_corpus_behavior cfgEx extEx fsEmptyHN).1 (by rfl),
    (C6_ensure_corpus_behavior cfgEx extEx fsNoCorpus).2.2.2 (by rfl) (by rfl) (by rfl)⟩

/-- C7: when evaluation is requested and the evaluation dataset fails to
load, the loader's error is raised before any stage runs (filesystem
untouched, empty trace) and is propagated to the caller unmodified; when
evaluation is not requested, the run is entirely independent of the
loader's outcome. -/
theorem C7_evaluation_check (cfg : Config) (ext : Ext) (fs : FS) (e : Err) :
    (cfg.do_evaluation = true → cfg.evaluation_data_missing = false →
        check_pooling cfg = none → ext.evalLoad = some e →
        train cfg ext fs = ⟨fs, [], some e⟩)
      ∧ (cfg.do_evaluation = false → ∀ o o2 : Option Err,
          train cfg { ext with evalLoad := o } fs = train cfg { ext with evalLoad := o2 } fs) := by
  constructor
  · intro hde hmiss hp hload
    have hce : check_evaluation cfg ext = some e := by
      simp [check_evaluation, hde, hmiss, hload]
    simp [train, hp, hce]
  · intro hde o o2
    have he1 : check_evaluation cfg { ext with evalLoad := o } = none := by
      simp [check_evaluation, hde]
    have he2 : check_evaluation cfg { ext with evalLoad := o2 } = none := by
      simp [check_evaluation, hde]
    cases hp : check_pooling cfg with
    | some e2 => simp [train, hp]
    | none =>
      rw [train_eq_chain cfg _ fs hp he1, train_eq_chain cfg _ fs hp he2]
      rfl

/-- A configuration requesting evaluation. -/
def cfgEval : Config := { output_dir := "output", do_evaluation := true }

/-- An oracle whose evaluation-data loader raises. -/
def extBadLoad : Ext := { evalLoad := some (.loadError "unexpected BeIR format") }

/-- C7, witness: a failing loader aborts the run before anything happens,
with the loader's own error surfaced. -/
theorem C7_witness :
    train cfgEval extBadLoad fsNoCorpus =
      ⟨fsNoCorpus, [], some (.loadError "unexpected BeIR format")⟩ :=
  (C7_evaluation_check cfgEval extBadLoad fsNoCorpus
    (.loadError "unexpected BeIR format")).1 (by rfl) (by rfl) (by rfl) (by rfl)

/-- C10: the generated-data directory is created (empty) when missing and
left untouched when present — never an error either way — so a
non-existent `path_to_generated_data` never itself aborts a run that
passes the up-front checks: the run behaves exactly as on a fresh empty
directory and proceeds to the corpus check, which then requires the
corpus under the evaluation path. -/
theorem C10_makedirs_behavior (cfg : Config) (ext : Ext) (fs : FS) :
    (makedirsStep fs).genDirExists = true
      ∧ (fs.genDirExists = true → makedirsStep fs = fs)
      ∧ (fs.genDirExists = false → check_pooling cfg = none → check_evaluation cfg ext = none →
          train cfg ext fs = train cfg ext { fs with genDirExists := true, genDir := [] })
      ∧ (fs.genDirExists = false → check_pooling cfg = none → check_evaluation cfg ext = none →
          hasFile fs.evalDir "corpus.jsonl" = false →
          (train cfg ext fs).err = some (.assertionError "No corpus found in evaluation path")) := by
  refine ⟨rfl, fun h => makedirsStep_of_exists fs h, fun h hp hev => ?_, fun h hp hev hcorp => ?_⟩
  · rw [train_eq_chain cfg ext fs hp hev,
      train_eq_chain cfg ext { fs with genDirExists := true, genDir := [] } hp hev]
    have hm : makedirsStep fs = makedirsStep { fs with genDirExists := true, genDir := [] } := by
      rw [makedirsStep_of_missing fs h, makedirsStep_of_exists _ rfl]
    rw [hm]
  · rw [train_eq_chain cfg ext fs hp hev, makedirsStep_of_missing fs h]
    have hec : ensure_corpus cfg ext { fs with genDirExists := true, genDir := [] } =
        ⟨{ fs with genDirExists := true, genDir := [] }, [],
          some (.assertionError "No corpus found in evaluation path")⟩ := by
      simp [ensure_corpus, hasFile_nil, hcorp]
    simp [RunResult.andThen, hec]

/-- A state whose generated-data directory does not exist and whose
evaluation directory has no corpus either. -/
def fsMissingDir : FS :=
  { genDirExists := false, genDir := [], evalDir := [], outTree := [] }

/-- C10, witness: a missing generated-data directory is created and the
run proceeds to the corpus check, which aborts only because the
evaluation path has no corpus. -/
theorem C10_witness :
    train cfgEx extEx fsMissingDir =
        train cfgEx extEx { fsMissingDir with genDirExists := true, genDir := [] }
      ∧ (train cfgEx extEx fsMissingDir).err =
        some (.assertionError "No corpus found in evaluation path") :=
  ⟨(C10_makedirs_behavior cfgEx extEx fsMissingDir).2.2.1 (by rfl) (by rfl) (by rfl),
    (C10_makedirs_behavior cfgEx extEx fsMissingDir).2.2.2 (by rfl) (by rfl) (by rfl) (by rfl)⟩

theorem andThen_getFile (r : RunResult) (k : FS → RunResult) (name : String)
    (hk : ∀ s, getFile (k s).fs.genDir name = getFile s.genDir name) :
    getFile ((r.andThen k).fs).genDir name = getFile r.fs.genDir name := by
  unfold RunResult.andThen
  cases h : r.err
  · simp [hk]
  · rfl

/-- Any event of a full run either comes from the ensure-corpus step or is
one of the five fixed stage events. -/
theorem train_evs_sub (cfg : Config) (ext : Ext) (fs : FS) (e : Event)
    (hm : e ∈ (train cfg ext fs).evs) :
    e ∈ (ensure_corpus cfg ext (makedirsStep fs)).evs
      ∨ e = .runQGen ∨ e = .runMiner
      ∨ e = .runPseudoLabeler cfg.gpl_steps cfg.batch_size_gpl
      ∨ e = .runTraining cfg.gpl_steps ∨ e = .runEvaluate := by
  cases hp : check_pooling cfg with
  | some er => simp [train, hp] at hm
  | none =>
    cases hev : check_evaluation cfg ext with
    | some er => simp [train, hp, hev] at hm
    | none =>
      rw [train_eq_chain cfg ext fs hp hev] at hm
      rcases (mem_andThen_evs _ _ e).1 hm with hm5 | ⟨-, hmEv⟩
      · rcases (mem_andThen_evs _ _ e).1 hm5 with hm4 | ⟨-, hmT⟩
        · rcases (mem_andThen_evs _ _ e).1 hm4 with hm3 | ⟨-, hmL⟩
          · rcases (mem_andThen_evs _ _ e).1 hm3 with hm2 | ⟨-, hmM⟩
            · rcases (mem_andThen_evs _ _ e).1 hm2 with hm1 | ⟨-, hmG⟩
              · rcases (mem_andThen_evs _ _ e).1 hm1 with hm0 | ⟨-, hmE0⟩
                · exact absurd hm0 (by simp)
                · exact Or.inl hmE0
              · rcases generate_queries_evs cfg ext _ with h0 | h0
                · rw [h0] at hmG; exact absurd hmG (by simp)
                · rw [h0] at hmG
                  simp only [List.mem_singleton] at hmG
                  exact Or.inr (Or.inl hmG)
            · rcases mine_negatives_evs cfg ext _ with h0 | h0
              · rw [h0] at hmM; exact absurd hmM (by simp)
              · rw [h0] at hmM
                simp only [List.mem_singleton] at hmM
                exact Or.inr (Or.inr (Or.inl hmM))
          · rcases pseudo_label_evs cfg ext _ with h0 | h0
            · rw [h0] at hmL; exact absurd hmL (by simp)
            · rw [h0] at hmL
              simp only [List.mem_singleton] at hmL
              exact Or.inr (Or.inr (Or.inr (Or.inl hmL)))
        · rcases train_stage_evs cfg ext _ with h0 | h0
          · rw [h0] at hmT; exact absurd hmT (by simp)
          · rw [h0] at hmT
            simp only [List.mem_singleton] at hmT
            exact Or.inr (Or.inr (Or.inr (Or.inr (Or.inl hmT))))
      · rcases evaluate_stage_evs cfg _ with h0 | h0
        · rw [h0] at hmEv; exact absurd hmEv (by simp)
        · rw [h0] at hmEv
          simp only [List.mem_singleton] at hmEv
          exact Or.inr (Or.inr (Or.inr (Or.inr (Or.inr hmEv))))

/-- A resize or copy event can only come from the ensure-corpus step, and
only when the corpus was absent after `makedirs`. -/
theorem train_resize_copy_sources (cfg : Config) (ext : Ext) (fs : FS) :
    (∀ n, Event.resizeCorpus n ∈ (train cfg ext fs).evs →
        hasFile (makedirsStep fs).genDir "corpus.jsonl" = false ∧ cfg.new_size = some n)
      ∧ (Event.copyCorpus ∈ (train cfg ext fs).evs →
        hasFile (makedirsStep fs).genDir "corpus.jsonl" = false ∧ cfg.new_size = none) := by
  constructor
  · intro n hm
    rcases train_evs_sub cfg ext fs _ hm with hE | h | h | h | h | h
    · rcases ensure_corpus_evs_cases cfg ext (makedirsStep fs) with h0 | ⟨h0, hf, hn⟩
        | ⟨m, h0, hf, hn⟩
      · rw [h0] at hE; exact absurd hE (by simp)
      · rw [h0] at hE; simp at hE
      · rw [h0] at hE
        simp only [List.mem_singleton] at hE
        injection hE with hnm
        subst hnm
        exact ⟨hf, hn⟩
    · simp at h
    · simp at h
    · simp at h
    · simp at h
    · simp at h
  · intro hm
    rcases train_evs_sub cfg ext fs _ hm with hE | h | h | h | h | h
    · rcases ensure_corpus_evs_cases cfg ext (makedirsStep fs) with h0 | ⟨h0, hf, hn⟩
        | ⟨m, h0, hf, hn⟩
      · rw [h0] at hE; exact absurd hE (by simp)
      · exact ⟨hf, hn⟩
      · rw [h0] at hE; simp at hE
    · simp at h
    · simp at h
    · simp at h
    · simp at h
    · simp at h

/-- C9: when `corpus.jsonl` already exists in the generated-data
directory, the resize option is inert — the ensure-corpus step is a no-op
for every `new_size` and every content of the evaluation directory, the
full run emits no resize and no copy event, and the corpus file's content
is untouched; resizing can only occur on the run that first populates the
corpus artifact. -/
theorem C9_new_size_inert_when_corpus_present (cfg : Config) (ext : Ext) (fs : FS)
    (hex : fs.genDirExists = true) (h : hasFile fs.genDir "corpus.jsonl" = true) :
    (∀ (o : Option Nat) (d : Dir),
        ensure_corpus { cfg with new_size := o } ext { fs with evalDir := d } =
          ⟨{ fs with evalDir := d }, [], none⟩)
      ∧ (∀ n, Event.resizeCorpus n ∉ (train cfg ext fs).evs)
      ∧ Event.copyCorpus ∉ (train cfg ext fs).evs
      ∧ getFile (train cfg ext fs).fs.genDir "corpus.jsonl" = getFile fs.genDir "corpus.jsonl" := by
  refine ⟨fun o d => ensure_corpus_of_present _ ext _ h, fun n hm => ?_, fun hm => ?_, ?_⟩
  · have hsrc := (train_resize_copy_sources cfg ext fs).1 n hm
    rw [makedirsStep_of_exists fs hex] at hsrc
    rw [hsrc.1] at h
    cases h
  · have hsrc := (train_resize_copy_sources cfg ext fs).2 hm
    rw [makedirsStep_of_exists fs hex] at hsrc
    rw [hsrc.1] at h
    cases h
  · cases hp : check_pooling cfg with
    | some e => simp [train, hp]
    | none =>
      cases hev : check_evaluation cfg ext with
      | some e => simp [train, hp, hev]
      | none =>
        rw [train_eq_chain cfg ext fs hp hev, makedirsStep_of_exists fs hex]
        rw [andThen_getFile _ _ _ (fun s => by rw [evaluate_stage_fs cfg s]),
          andThen_getFile _ _ _ (fun s => by rw [(train_stage_frame cfg ext s).2.2]),
          andThen_getFile _ _ _ (fun s => pseudo_label_getFile cfg ext s _ (by decide)),
          andThen_getFile _ _ _ (fun s => mine_negatives_getFile cfg ext s _ (by decide)),
          andThen_getFile _ _ _ (fun s => generate_queries_getFile cfg ext s _
            (Ne.symm (qrels_ne_corpus cfg.qgen_pfx)) (Ne.symm (queries_ne_corpus cfg.qgen_pfx)))]
        rw [andThen_none, ensure_corpus_of_present cfg ext fs h]

/-- C9, witness: with the corpus already present, a resize target and an
emptied evaluation directory change nothing, and a full run leaves the
corpus content as it was. -/
theorem C9_witness :
    ensure_corpus { cfgEx with new_size := some 3 } extEx { fsEmptyHN with evalDir := [] } =
        ⟨{ fsEmptyHN with evalDir := [] }, [], none⟩
      ∧ getFile (train cfgEx extEx fsEmptyHN).fs.genDir "corpus.jsonl" =
        getFile fsEmptyHN.genDir "corpus.jsonl" :=
  ⟨(C9_new_size_inert_when_corpus_present cfgEx extEx fsEmptyHN (by rfl) (by rfl)).1 (some 3) [],
    (C9_new_size_inert_when_corpus_present cfgEx extEx fsEmptyHN (by rfl) (by rfl)).2.2.2⟩

/-- C3: starting from a directory where `hard-negatives.jsonl` exists but
`gpl-training-data.tsv` was deleted, re-running the pipeline raises no
error, runs the pseudo-labeling stage again, does not re-run mining, and
leaves the `hard-negatives.jsonl` artifact unmodified. -/
theorem C3_resume_after_deleting_labels (cfg : Config) (ext : Ext) (fs : FS)
    (hp : check_pooling cfg = none) (hev : check_evaluation cfg ext = none)
    (hex : fs.genDirExists = true)
    (hc : hasFile fs.genDir "corpus.jsonl" = true)
    (hq1 : hasFile fs.genDir (cfg.qgen_pfx ++ "-qrels") = true)
    (hq2 : hasFile fs.genDir (cfg.qgen_pfx ++ "-queries.jsonl") = true)
    (hhn : hasFile fs.genDir "hard-negatives.jsonl" = true)
    (hgpl : hasFile fs.genDir "gpl-training-data.tsv" = false) :
    (train cfg ext fs).err = none
      ∧ Event.runPseudoLabeler cfg.gpl_steps cfg.batch_size_gpl ∈ (train cfg ext fs).evs
      ∧ Event.runMiner ∉ (train cfg ext fs).evs
      ∧ getFile (train cfg ext fs).fs.genDir "hard-negatives.jsonl" =
        getFile fs.genDir "hard-negatives.jsonl" := by
  have h1 : (⟨fs, [], none⟩ : RunResult).andThen (ensure_corpus cfg ext) = ⟨fs, [], none⟩ := by
    rw [andThen_none, ensure_corpus_of_present cfg ext fs hc]
    rfl
  have h2 : (⟨fs, [], none⟩ : RunResult).andThen (generate_queries cfg ext) = ⟨fs, [], none⟩ := by
    rw [andThen_none, generate_queries_of_present cfg ext fs hq1 hq2]
    rfl
  have h3 : (⟨fs, [], none⟩ : RunResult).andThen (mine_negatives cfg ext) = ⟨fs, [], none⟩ := by
    rw [andThen_none, mine_negatives_of_present cfg ext fs hhn]
    rfl
  have h4 : (⟨fs, [], none⟩ : RunResult).andThen (pseudo_label cfg ext) =
      ⟨{ fs with genDir := setFile fs.genDir "gpl-training-data.tsv" ext.labeledContent },
        [.runPseudoLabeler cfg.gpl_steps cfg.batch_size_gpl], none⟩ := by
    rw [andThen_none, pseudo_label_of_absent cfg ext fs hgpl]
    rfl
  rw [train_eq_chain cfg ext fs hp hev, makedirsStep_of_exists fs hex, h1, h2, h3, h4]
  refine ⟨?_, ?_, ?_, ?_⟩
  · rw [andThen_err_none_iff, andThen_err_none_iff]
    exact ⟨⟨rfl, train_stage_err cfg ext _⟩, evaluate_stage_err cfg _⟩
  · rw [mem_andThen_evs]
    left
    rw [mem_andThen_evs]
    left
    simp
  · intro hm
    rcases (mem_andThen_evs _ _ _).1 hm with hm1 | ⟨-, hm2⟩
    · rcases (mem_andThen_evs _ _ _).1 hm1 with hm0 | ⟨-, hmT⟩
      · simp at hm0
      · rcases train_stage_evs cfg ext _ with h0 | h0
        · rw [h0] at hmT; simp at hmT
        · rw [h0] at hmT; simp at hmT
    · rcases evaluate_stage_evs cfg _ with h0 | h0
      · rw [h0] at hm2; simp at hm2
      · rw [h0] at hm2; simp at hm2
  · rw [andThen_fs_of_none _ _
        (by rw [andThen_err_none_iff]; exact ⟨rfl, train_stage_err cfg ext _⟩),
      evaluate_stage_fs, andThen_fs_of_none _ _ rfl, (train_stage_frame cfg ext _).2.2]
    exact getFile_setFile_ne fs.genDir _ _ _ (by decide)

/-- The directory of a previous full run with only the pseudo-labeling
artifact deleted. -/
def fsDelLabels : FS :=
  { genDirExists := true
    genDir := [("corpus.jsonl", 5), ("qgen-qrels", 1), ("qgen-queries.jsonl", 2),
               ("hard-negatives.jsonl", 7)]
    evalDir := [("corpus.jsonl", 9)]
    outTree := [] }

/-- C3, witness: the concrete resumed run relabels, skips mining, keeps
the mined file byte-identical. -/
theorem C3_witness :
    (train cfgEx extEx fsDelLabels).err = none
      ∧ Event.runPseudoLabeler cfgEx.gpl_steps cfgEx.batch_size_gpl ∈
        (train cfgEx extEx fsDelLabels).evs
      ∧ Event.runMiner ∉ (train cfgEx extEx fsDelLabels).evs
      ∧ getFile (train cfgEx extEx fsDelLabels).fs.genDir "hard-negatives.jsonl" =
        getFile fsDelLabels.genDir "hard-negatives.jsonl" :=
  C3_resume_after_deleting_labels cfgEx extEx fsDelLabels (by rfl) (by rfl) (by rfl)
    (by rfl) (by rfl) (by rfl) (by rfl) (by rfl)

/-! ## Injectivity of the decimal representation used in `ckptDir`

`str(gpl_steps)` is modelled by `Nat.repr`; to show two step counts give
two distinct checkpoint paths we prove `Nat.repr` injective by exhibiting
a decoder. -/

/-- Decimal digits of `n`, most significant first. -/
def decDigits (n : Nat) : List Char :=
  if n < 10 then [Nat.digitChar n]
  else decDigits (n / 10) ++ [Nat.digitChar (n % 10)]
termination_by n
decreasing_by
  rename_i h
  simp only [not_lt] at h
  exact Nat.div_lt_self (by omega) (by omega)

theorem toDigitsCore_append (b f n : Nat) (ds : List Char) :
    Nat.toDigitsCore b f n ds = Nat.toDigitsCore b f n [] ++ ds := by
  induction f generalizing n ds with
  | zero => rfl
  | succ f ih =>
    simp only [Nat.toDigitsCore]
    by_cases h : n / b = 0
    · simp [h]
    · simp only [h, if_false]
      rw [ih (n / b) (Nat.digitChar (n % b) :: ds), ih (n / b) [Nat.digitChar (n % b)]]
      simp

theorem toDigitsCore_eq_decDigits (f n : Nat) (hf : n < f) :
    Nat.toDigitsCore 10 f n [] = decDigits n := by
  induction f generalizing n with
  | zero => omega
  | succ f ih =>
    unfold decDigits
    simp only [Nat.toDigitsCore]
    by_cases h : n < 10
    · have hdiv : n / 10 = 0 := Nat.div_eq_of_lt h
      simp [hdiv, h, Nat.mod_eq_of_lt h]
    · have hn : 0 < n := by omega
      have hlt : n / 10 < n := Nat.div_lt_self hn (by omega)
      have hdiv : ¬n / 10 = 0 := by
        intro h0
        rw [Nat.div_eq_zero_iff (by omega)] at h0
        exact h h0
      simp only [hdiv, if_false, h]
      rw [toDigitsCore_append, ih (n / 10) (by omega)]

/-- Numeric value of a decimal digit character. -/
def decCharVal (c : Char) : Nat := c.toNat - 48

/-- Decode a most-significant-first decimal digit string. -/
def decodeDecimal (l : List Char) : Nat :=
  l.foldl (fun a c => 10 * a + decCharVal c) 0

theorem foldl_decode_append (l : List Char) (c : Char) (a : Nat) :
    (l ++ [c]).foldl (fun a c => 10 * a + decCharVal c) a =
      10 * l.foldl (fun a c => 10 * a + decCharVal c) a + decCharVal c := by
  rw [List.foldl_append]
  rfl

theorem decCharVal_digitChar : ∀ d : Nat, d < 10 → decCharVal (Nat.digitChar d) = d := by
  decide

theorem decode_decDigits (n : Nat) : decodeDecimal (decDigits n) = n := by
  induction n using Nat.strong_induction_on with
  | _ n ih =>
    unfold decDigits
    by_cases h : n < 10
    · simp only [h, if_true, decodeDecimal, List.foldl_cons, List.foldl_nil]
      rw [decCharVal_digitChar n h]
      omega
    · simp only [h, if_false]
      have hn : 0 < n := by omega
      rw [decodeDecimal, foldl_decode_append]
      rw [show (decDigits (n / 10)).foldl (fun a c => 10 * a + decCharVal c) 0 =
          decodeDecimal (decDigits (n / 10)) from rfl]
      rw [ih (n / 10) (Nat.div_lt_self hn (by omega))]
      rw [decCharVal_digitChar (n % 10) (Nat.mod_lt n (by omega))]
      omega

theorem repr_eq_decDigits (n : Nat) : Nat.repr n = (decDigits n).asString := by
  unfold Nat.repr Nat.toDigits
  rw [toDigitsCore_eq_decDigits (n + 1) n (Nat.lt_succ_self n)]

theorem repr_injective (m n : Nat) (h : Nat.repr m = Nat.repr n) : m = n := by
  rw [repr_eq_decDigits, repr_eq_decDigits] at h
  have hd : decDigits m = decDigits n := congrArg String.data h
  have hv := congrArg decodeDecimal hd
  rwa [decode_decDigits, decode_decDigits] at hv

theorem string_append_left_cancel (a b c : String) (h : a ++ b = a ++ c) : b = c := by
  have hd := congrArg String.data h
  rw [String.data_append, String.data_append] at hd
  exact String.ext (List.append_cancel_left hd)

/-- Two runs differing only in `gpl_steps` consult two distinct
checkpoint directories. -/
theorem ckptDir_injective_in_steps (cfg : Config) (s1 s2 : Nat) (h : s1 ≠ s2) :
    ckptDir { cfg with gpl_steps := s1 } ≠ ckptDir { cfg with gpl_steps := s2 } := by
  unfold ckptDir ospath_join
  intro he
  apply h
  by_cases h0 : cfg.output_dir = ""
  · simp only [h0, if_true] at he
    exact repr_injective _ _ he
  · by_cases h1 : cfg.output_dir.endsWith "/"
    · simp only [h0, h1, if_false, if_true] at he
      exact repr_injective _ _ (string_append_left_cancel _ _ _ he)
    · simp only [h0, h1, if_false] at he
      exact repr_injective _ _ (string_append_left_cancel _ _ _ he)

/-- C5: the checkpoint artifact path is `output_dir` joined with the
decimal step count, so two runs differing only in `gpl_steps` consult two
distinct checkpoint directories, while a run with every upstream artifact
already present — whatever its step count — recomputes nothing upstream:
the generated-data directory is untouched, no error arises, and only the
training (and optional evaluation) events may occur. -/
theorem C5_ckpt_keyed_by_steps (cfg : Config) (ext : Ext) (fs : FS) (s1 s2 : Nat)
    (hne : s1 ≠ s2)
    (hp : check_pooling cfg = none) (hev : check_evaluation cfg ext = none)
    (hex : fs.genDirExists = true)
    (hc : hasFile fs.genDir "corpus.jsonl" = true)
    (hq1 : hasFile fs.genDir (cfg.qgen_pfx ++ "-qrels") = true)
    (hq2 : hasFile fs.genDir (cfg.qgen_pfx ++ "-queries.jsonl") = true)
    (hhn : hasFile fs.genDir "hard-negatives.jsonl" = true)
    (hgpl : hasFile fs.genDir "gpl-training-data.tsv" = true) :
    ckptDir { cfg with gpl_steps := s1 } = ospath_join cfg.output_dir (Nat.repr s1)
      ∧ ckptDir { cfg with gpl_steps := s1 } ≠ ckptDir { cfg with gpl_steps := s2 }
      ∧ ∀ s : Nat,
          (train { cfg with gpl_steps := s } ext fs).fs.genDir = fs.genDir
            ∧ (train { cfg with gpl_steps := s } ext fs).err = none
            ∧ (train { cfg with gpl_steps := s } ext fs).evs ⊆
              [Event.runTraining s, Event.runEvaluate] := by
  refine ⟨rfl, ckptDir_injective_in_steps cfg s1 s2 hne, fun s => ?_⟩
  have hp2 : check_pooling { cfg with gpl_steps := s } = none := hp
  have hev2 : check_evaluation { cfg with gpl_steps := s } ext = none := hev
  have h1 : (⟨fs, [], none⟩ : RunResult).andThen
      (ensure_corpus { cfg with gpl_steps := s } ext) = ⟨fs, [], none⟩ := by
    rw [andThen_none, ensure_corpus_of_present _ ext fs hc]
    rfl
  have h2 : (⟨fs, [], none⟩ : RunResult).andThen
      (generate_queries { cfg with gpl_steps := s } ext) = ⟨fs, [], none⟩ := by
    rw [andThen_none, generate_queries_of_present { cfg with gpl_steps := s } ext fs hq1 hq2]
    rfl
  have h3 : (⟨fs, [], none⟩ : RunResult).andThen
      (mine_negatives { cfg with gpl_steps := s } ext) = ⟨fs, [], none⟩ := by
    rw [andThen_none, mine_negatives_of_present _ ext fs hhn]
    rfl
  have h4 : (⟨fs, [], none⟩ : RunResult).andThen
      (pseudo_label { cfg with gpl_steps := s } ext) = ⟨fs, [], none⟩ := by
    rw [andThen_none, pseudo_label_of_present _ ext fs hgpl]
    rfl
  rw [train_eq_chain _ ext fs hp2 hev2, makedirsStep_of_exists fs hex, h1, h2, h3, h4]
  refine ⟨?_, ?_, ?_⟩
  · rw [andThen_fs_of_none _ _
        (by rw [andThen_err_none_iff]; exact ⟨rfl, train_stage_err _ ext _⟩),
      evaluate_stage_fs, andThen_fs_of_none _ _ rfl,
      (train_stage_frame _ ext _).2.2]
  · rw [andThen_err_none_iff, andThen_err_none_iff]
    exact ⟨⟨rfl, train_stage_err _ ext _⟩, evaluate_stage_err _ _⟩
  · intro e he
    rcases (mem_andThen_evs _ _ _).1 he with he1 | ⟨-, he2⟩
    · rcases (mem_andThen_evs _ _ _).1 he1 with he0 | ⟨-, heT⟩
      · simp at he0
      · rcases train_stage_evs { cfg with gpl_steps := s } ext _ with h0 | h0
        · rw [h0] at heT; simp at heT
        · rw [h0] at heT
          simp only [List.mem_singleton] at heT
          subst heT
          simp
    · rcases evaluate_stage_evs { cfg with gpl_steps := s } _ with h0 | h0
      · rw [h0] at he2; simp at he2
      · rw [h0] at he2
        simp only [List.mem_singleton] at he2
        subst he2
        simp

/-- The directory of a completed run: everything present. -/
def fsAll : FS :=
  { genDirExists := true
    genDir := [("corpus.jsonl", 5), ("qgen-qrels", 1), ("qgen-queries.jsonl", 2),
               ("hard-negatives.jsonl", 7), ("gpl-training-data.tsv", 4)]
    evalDir := [("corpus.jsonl", 9)]
    outTree := [("output/140000", 3)] }

/-- C5, witness: step counts 7 and 8 give distinct checkpoint paths, and a
re-run over a fully populated directory recomputes nothing upstream. -/
theorem C5_witness :
    ckptDir { cfgEx with gpl_steps := 7 } ≠ ckptDir { cfgEx with gpl_steps := 8 }
      ∧ (train { cfgEx with gpl_steps := 8 } extEx fsAll).fs.genDir = fsAll.genDir
      ∧ (train { cfgEx with gpl_steps := 8 } extEx fsAll).err = none :=
  ⟨(C5_ckpt_keyed_by_steps cfgEx extEx fsAll 7 8 (by decide) (by rfl) (by rfl) (by rfl)
      (by rfl) (by rfl) (by rfl) (by rfl) (by rfl)).2.1,
    ((C5_ckpt_keyed_by_steps cfgEx extEx fsAll 7 8 (by decide) (by rfl) (by rfl) (by rfl)
      (by rfl) (by rfl) (by rfl) (by rfl) (by rfl)).2.2 8).1,
    ((C5_ckpt_keyed_by_steps cfgEx extEx fsAll 7 8 (by decide) (by rfl) (by rfl) (by rfl)
      (by rfl) (by rfl) (by rfl) (by rfl) (by rfl)).2.2 8).2.1⟩

theorem generate_queries_of_run (cfg : Config) (ext : Ext) (s : FS)
    (hq1 : hasFile s.genDir (cfg.qgen_pfx ++ "-qrels") = false)
    (hc : hasFile s.genDir "corpus.jsonl" = true) :
    generate_queries cfg ext s =
      ⟨{ s with genDir := setFile (setFile s.genDir (cfg.qgen_pfx ++ "-qrels") ext.qgenQrelsContent) (cfg.qgen_pfx ++ "-queries.jsonl") ext.qgenQueriesContent },
        [.runQGen], none⟩ := by
  simp [generate_queries, hq1, hc]

theorem mine_negatives_of_bad (cfg : Config) (ext : Ext) (s : FS)
    (hhn : hasFile s.genDir "hard-negatives.jsonl" = false)
    (hbad : cfg.retrievers.all ext.retrieverLoadable = false) :
    mine_negatives cfg ext s =
      ⟨s, [], some (.retrieverLoadError
        ((cfg.retrievers.find? (fun r => !ext.retrieverLoadable r)).getD ""))⟩ := by
  simp [mine_negatives, hhn, hbad]

/-- A configuration naming a single, unloadable retrieval signal. -/
def cfgBadRet : Config := { output_dir := "output", retrievers := ["bogus"] }

/-- An oracle on which the identifier `bogus` cannot be loaded. -/
def extBadRet : Ext := { retrieverLoadable := fun r => r != "bogus" }

/-- A directory holding only the corpus: query generation is still
pending. -/
def fsQGenPending : FS :=
  { genDirExists := true
    genDir := [("corpus.jsonl", 5)]
    evalDir := [("corpus.jsonl", 9)]
    outTree := [] }

/-- C2, counterexample: with an unloadable retrieval-signal identifier and
query generation still pending, the run raises the retriever error only
AFTER the query-generation stage has run and written its artifacts — not
before any pipeline stage. -/
theorem C2_counterexample :
    (train cfgBadRet extBadRet fsQGenPending).err = some (.retrieverLoadError "bogus")
      ∧ Event.runQGen ∈ (train cfgBadRet extBadRet fsQGenPending).evs
      ∧ hasFile (train cfgBadRet extBadRet fsQGenPending).fs.genDir "qgen-qrels" = true := by
  refine ⟨by decide, by decide, by decide⟩

/-- C2, amended: an unsupported pooling mode is raised before anything at
all; a missing required corpus is raised during the ensure-corpus step,
still before any artifact is written; but an unloadable retrieval-signal
identifier is raised only when the mining stage itself runs — mining then
writes nothing, yet query generation may already have run and written its
artifacts beforehand. -/
theorem C2_error_timing (cfg : Config) (ext : Ext) (fs : FS) :
    (["mean", "cls", "max"].contains cfg.pooling = false →
        train cfg ext fs = ⟨fs, [], some (.assertionError "pooling")⟩)
      ∧ (check_pooling cfg = none → check_evaluation cfg ext = none →
          hasFile (makedirsStep fs).genDir "corpus.jsonl" = false →
          hasFile fs.evalDir "corpus.jsonl" = false →
          train cfg ext fs =
            ⟨makedirsStep fs, [], some (.assertionError "No corpus found in evaluation path")⟩)
      ∧ (∀ s : FS, (mine_negatives cfg ext s).err ≠ none →
          mine_negatives cfg ext s =
              ⟨s, [], some (.retrieverLoadError
                ((cfg.retrievers.find? (fun r => !ext.retrieverLoadable r)).getD ""))⟩
            ∧ hasFile s.genDir "hard-negatives.jsonl" = false)
      ∧ (check_pooling cfg = none → check_evaluation cfg ext = none →
          fs.genDirExists = true →
          hasFile fs.genDir "corpus.jsonl" = true →
          hasFile fs.genDir (cfg.qgen_pfx ++ "-qrels") = false →
          hasFile fs.genDir "hard-negatives.jsonl" = false →
          cfg.retrievers.all ext.retrieverLoadable = false →
          (train cfg ext fs).err = some (.retrieverLoadError
              ((cfg.retrievers.find? (fun r => !ext.retrieverLoadable r)).getD ""))
            ∧ Event.runQGen ∈ (train cfg ext fs).evs) := by
  refine ⟨fun hpool => ?_, fun hp hev hgc hec => ?_, fun s herr => ?_,
    fun hp hev hex hc hq1 hhn hbad => ?_⟩
  · have hp : check_pooling cfg = some (.assertionError "pooling") := by
      unfold check_pooling
      rw [hpool]
      rfl
    simp [train, hp]
  · rw [train_eq_chain cfg ext fs hp hev]
    have hec2 : ensure_corpus cfg ext (makedirsStep fs) =
        ⟨makedirsStep fs, [], some (.assertionError "No corpus found in evaluation path")⟩ := by
      have heval : (makedirsStep fs).evalDir = fs.evalDir := rfl
      simp [ensure_corpus, hgc, heval, hec]
    simp [RunResult.andThen, hec2]
  · unfold mine_negatives at herr ⊢
    by_cases hhn : hasFile s.genDir "hard-negatives.jsonl" = true
    · simp [hhn] at herr
    · rw [Bool.not_eq_true] at hhn
      by_cases hld : cfg.retrievers.all ext.retrieverLoadable = true
      · simp [hhn, hld] at herr
      · rw [Bool.not_eq_true] at hld
        refine ⟨?_, hhn⟩
        simp [hhn, hld]
  · have h1 : (⟨fs, [], none⟩ : RunResult).andThen (ensure_corpus cfg ext) = ⟨fs, [], none⟩ := by
      rw [andThen_none, ensure_corpus_of_present cfg ext fs hc]
      rfl
    have h2 : (⟨fs, [], none⟩ : RunResult).andThen (generate_queries cfg ext) =
        ⟨{ fs with genDir := setFile (setFile fs.genDir (cfg.qgen_pfx ++ "-qrels") ext.qgenQrelsContent) (cfg.qgen_pfx ++ "-queries.jsonl") ext.qgenQueriesContent },
          [.runQGen], none⟩ := by
      rw [andThen_none, generate_queries_of_run cfg ext fs hq1 hc]
      rfl
    have hhn2 : hasFile (setFile (setFile fs.genDir (cfg.qgen_pfx ++ "-qrels") ext.qgenQrelsContent) (cfg.qgen_pfx ++ "-queries.jsonl") ext.qgenQueriesContent) "hard-negatives.jsonl" = false := by
      rw [hasFile_setFile_ne _ _ _ _ (Ne.symm (queries_ne_hn cfg.qgen_pfx)),
        hasFile_setFile_ne _ _ _ _ (Ne.symm (qrels_ne_hn cfg.qgen_pfx))]
      exact hhn
    have h3 := mine_negatives_of_bad cfg ext
      { fs with genDir := setFile (setFile fs.genDir (cfg.qgen_pfx ++ "-qrels") ext.qgenQrelsContent) (cfg.qgen_pfx ++ "-queries.jsonl") ext.qgenQueriesContent }
      hhn2 hbad
    rw [train_eq_chain cfg ext fs hp hev, makedirsStep_of_exists fs hex, h1, h2]
    simp [RunResult.andThen, h3]

/-- C2, witness: a bad pooling mode aborts with nothing touched, and an
unloadable retriever identifier surfaces only after query generation. -/
theorem C2_witness :
    train { cfgEx with pooling := "avg" } extEx fsQGenPending =
        ⟨fsQGenPending, [], some (.assertionError "pooling")⟩
      ∧ (train cfgBadRet extBadRet fsQGenPending).err = some (.retrieverLoadError "bogus")
      ∧ Event.runQGen ∈ (train cfgBadRet extBadRet fsQGenPending).evs :=
  ⟨(C2_error_timing { cfgEx with pooling := "avg" } extEx fsQGenPending).1 (by decide),
    ((C2_error_timing cfgBadRet extBadRet fsQGenPending).2.2.2 (by rfl) (by rfl) (by rfl)
      (by rfl) (by rfl) (by rfl) (by rfl)).1,
    ((C2_error_timing cfgBadRet extBadRet fsQGenPending).2.2.2 (by rfl) (by rfl) (by rfl)
      (by rfl) (by rfl) (by rfl) (by rfl)).2⟩

/-! ## Stage ordering -/

/-- Position of each event's stage in the pipeline order. -/
def stageRank : Event → Nat
  | .copyCorpus => 1
  | .resizeCorpus _ => 1
  | .runQGen => 2
  | .runMiner => 3
  | .runPseudoLabeler _ _ => 4
  | .runTraining _ => 5
  | .runEvaluate => 6

theorem ensure_corpus_evs_shape (cfg : Config) (ext : Ext) (s : FS) :
    (ensure_corpus cfg ext s).evs = []
      ∨ ∃ x, (ensure_corpus cfg ext s).evs = [x] ∧ 0 < stageRank x ∧ stageRank x ≤ 1 := by
  rcases ensure_corpus_evs_cases cfg ext s with h | ⟨h, -, -⟩ | ⟨n, h, -, -⟩
  · exact Or.inl h
  · exact Or.inr ⟨.copyCorpus, h, by decide, by decide⟩
  · exact Or.inr ⟨.resizeCorpus n, h, by simp [stageRank], by simp [stageRank]⟩

theorem generate_queries_evs_shape (cfg : Config) (ext : Ext) (s : FS) :
    (generate_queries cfg ext s).evs = []
      ∨ ∃ x, (generate_queries cfg ext s).evs = [x] ∧ 1 < stageRank x ∧ stageRank x ≤ 2 := by
  rcases generate_queries_evs cfg ext s with h | h
  · exact Or.inl h
  · exact Or.inr ⟨.runQGen, h, by decide, by decide⟩

theorem mine_negatives_evs_shape (cfg : Config) (ext : Ext) (s : FS) :
    (mine_negatives cfg ext s).evs = []
      ∨ ∃ x, (mine_negatives cfg ext s).evs = [x] ∧ 2 < stageRank x ∧ stageRank x ≤ 3 := by
  rcases mine_negatives_evs cfg ext s with h | h
  · exact Or.inl h
  · exact Or.inr ⟨.runMiner, h, by decide, by decide⟩

theorem pseudo_label_evs_shape (cfg : Config) (ext : Ext) (s : FS) :
    (pseudo_label cfg ext s).evs = []
      ∨ ∃ x, (pseudo_label cfg ext s).evs = [x] ∧ 3 < stageRank x ∧ stageRank x ≤ 4 := by
  rcases pseudo_label_evs cfg ext s with h | h
  · exact Or.inl h
  · exact Or.inr ⟨.runPseudoLabeler cfg.gpl_steps cfg.batch_size_gpl, h, by simp [stageRank], by simp [stageRank]⟩

theorem train_stage_evs_shape (cfg : Config) (ext : Ext) (s : FS) :
    (train_stage cfg ext s).evs = []
      ∨ ∃ x, (train_stage cfg ext s).evs = [x] ∧ 4 < stageRank x ∧ stageRank x ≤ 5 := by
  rcases train_stage_evs cfg ext s with h | h
  · exact Or.inl h
  · exact Or.inr ⟨.runTraining cfg.gpl_steps, h, by simp [stageRank], by simp [stageRank]⟩

theorem evaluate_stage_evs_shape (cfg : Config) (s : FS) :
    (evaluate_stage cfg s).evs = []
      ∨ ∃ x, (evaluate_stage cfg s).evs = [x] ∧ 5 < stageRank x ∧ stageRank x ≤ 6 := by
  rcases evaluate_stage_evs cfg s with h | h
  · exact Or.inl h
  · exact Or.inr ⟨.runEvaluate, h, by decide, by decide⟩

/-- Appending one stage of events keeps the trace strictly rank-sorted and
under the new bound. -/
theorem andThen_rank_inv (r : RunResult) (k : FS → RunResult) (b b2 : Nat)
    (hr : List.Pairwise (fun a c => stageRank a < stageRank c) r.evs)
    (hrb : ∀ e ∈ r.evs, stageRank e ≤ b)
    (hk : ∀ s, (k s).evs = [] ∨ ∃ x, (k s).evs = [x] ∧ b < stageRank x ∧ stageRank x ≤ b2)
    (hbb : b ≤ b2) :
    List.Pairwise (fun a c => stageRank a < stageRank c) (r.andThen k).evs
      ∧ ∀ e ∈ (r.andThen k).evs, stageRank e ≤ b2 := by
  unfold RunResult.andThen
  cases h : r.err with
  | some e => exact ⟨hr, fun e he => le_trans (hrb e he) hbb⟩
  | none =>
    rcases hk r.fs with hk0 | ⟨x, hk1, hlt, hle⟩
    · simp only [hk0, List.append_nil]
      exact ⟨hr, fun e he => le_trans (hrb e he) hbb⟩
    · simp only [hk1]
      constructor
      · rw [List.pairwise_append]
        refine ⟨hr, List.pairwise_singleton _ _, ?_⟩
        intro a ha c hc
        simp only [List.mem_singleton] at hc
        subst hc
        exact lt_of_le_of_lt (hrb a ha) hlt
      · intro e he
        rcases List.mem_append.1 he with he | he
        · exact le_trans (hrb e he) hbb
        · simp only [List.mem_singleton] at he
          subst he
          exact hle

/-! ## Intermediate states of a run -/

/-- State after the ensure-corpus step. -/
def stage1 (cfg : Config) (ext : Ext) (fs : FS) : FS :=
  (ensure_corpus cfg ext (makedirsStep fs)).fs

/-- State after query generation. -/
def stage2 (cfg : Config) (ext : Ext) (fs : FS) : FS :=
  (generate_queries cfg ext (stage1 cfg ext fs)).fs

/-- State after hard-negative mining. -/
def stage3 (cfg : Config) (ext : Ext) (fs : FS) : FS :=
  (mine_negatives cfg ext (stage2 cfg ext fs)).fs

/-- State after pseudo labeling. -/
def stage4 (cfg : Config) (ext : Ext) (fs : FS) : FS :=
  (pseudo_label cfg ext (stage3 cfg ext fs)).fs

/-- State after the training stage. -/
def stage5 (cfg : Config) (ext : Ext) (fs : FS) : FS :=
  (train_stage cfg ext (stage4 cfg ext fs)).fs

/-- C8: every trace is strictly sorted by stage rank (ensure-corpus,
generation, mining, labeling, training, evaluation — in that order, each
at most once), and on an error-free run each stage is reached only with
its predecessor's artifact in place: the corpus after ensure-corpus, both
query artifacts after generation, the mined file after mining, the label
file after labeling, the checkpoint directory after training; the full
trace is exactly the concatenation of the per-stage traces in pipeline
order. -/
theorem C8_sequential_pipeline (cfg : Config) (ext : Ext) (fs : FS) :
    List.Pairwise (fun a c => stageRank a < stageRank c) (train cfg ext fs).evs
      ∧ ((train cfg ext fs).err = none →
          (ensure_corpus cfg ext (makedirsStep fs)).err = none
            ∧ hasFile (stage1 cfg ext fs).genDir "corpus.jsonl" = true
            ∧ (generate_queries cfg ext (stage1 cfg ext fs)).err = none
            ∧ hasFile (stage2 cfg ext fs).genDir (cfg.qgen_pfx ++ "-qrels") = true
            ∧ hasFile (stage2 cfg ext fs).genDir (cfg.qgen_pfx ++ "-queries.jsonl") = true
            ∧ (mine_negatives cfg ext (stage2 cfg ext fs)).err = none
            ∧ hasFile (stage3 cfg ext fs).genDir "hard-negatives.jsonl" = true
            ∧ hasFile (stage4 cfg ext fs).genDir "gpl-training-data.tsv" = true
            ∧ hasFile (stage5 cfg ext fs).outTree (ckptDir cfg) = true
            ∧ (train cfg ext fs).evs =
                (ensure_corpus cfg ext (makedirsStep fs)).evs
                  ++ (generate_queries cfg ext (stage1 cfg ext fs)).evs
                  ++ (mine_negatives cfg ext (stage2 cfg ext fs)).evs
                  ++ (pseudo_label cfg ext (stage3 cfg ext fs)).evs
                  ++ (train_stage cfg ext (stage4 cfg ext fs)).evs
                  ++ (evaluate_stage cfg (stage5 cfg ext fs)).evs) := by
  constructor
  · cases hp : check_pooling cfg with
    | some e => simp [train, hp]
    | none =>
      cases hev : check_evaluation cfg ext with
      | some e => simp [train, hp, hev]
      | none =>
        rw [train_eq_chain cfg ext fs hp hev]
        have s0p : List.Pairwise (fun a c => stageRank a < stageRank c)
            ({ fs := makedirsStep fs, evs := [], err := none } : RunResult).evs := by simp
        have s0b : ∀ e ∈ ({ fs := makedirsStep fs, evs := [], err := none } : RunResult).evs,
            stageRank e ≤ 0 := by simp
        have s1 := andThen_rank_inv _ (ensure_corpus cfg ext) 0 1 s0p s0b
          (ensure_corpus_evs_shape cfg ext) (by omega)
        have s2 := andThen_rank_inv _ (generate_queries cfg ext) 1 2 s1.1 s1.2
          (generate_queries_evs_shape cfg ext) (by omega)
        have s3 := andThen_rank_inv _ (mine_negatives cfg ext) 2 3 s2.1 s2.2
          (mine_negatives_evs_shape cfg ext) (by omega)
        have s4 := andThen_rank_inv _ (pseudo_label cfg ext) 3 4 s3.1 s3.2
          (pseudo_label_evs_shape cfg ext) (by omega)
        have s5 := andThen_rank_inv _ (train_stage cfg ext) 4 5 s4.1 s4.2
          (train_stage_evs_shape cfg ext) (by omega)
        have s6 := andThen_rank_inv _ (evaluate_stage cfg) 5 6 s5.1 s5.2
          (evaluate_stage_evs_shape cfg) (by omega)
        exact s6.1
  · intro herr
    cases hp : check_pooling cfg with
    | some e => simp [train, hp] at herr
    | none =>
      cases hev : check_evaluation cfg ext with
      | some e => simp [train, hp, hev] at herr
      | none =>
        rw [train_eq_chain cfg ext fs hp hev] at herr
        have h6 := (andThen_err_none_iff _ _).1 herr
        have h5 := (andThen_err_none_iff _ _).1 h6.1
        have h4 := (andThen_err_none_iff _ _).1 h5.1
        have h3 := (andThen_err_none_iff _ _).1 h4.1
        have h2 := (andThen_err_none_iff _ _).1 h3.1
        have h1 := (andThen_err_none_iff _ _).1 h2.1
        have f1 : (({ fs := makedirsStep fs, evs := [], err := none } : RunResult).andThen
            (ensure_corpus cfg ext)).fs = stage1 cfg ext fs := by
          rw [andThen_fs_of_none _ _ h1.1]
          rfl
        rw [f1] at h2
        have f2 : ((({ fs := makedirsStep fs, evs := [], err := none } : RunResult).andThen
            (ensure_corpus cfg ext)).andThen (generate_queries cfg ext)).fs =
            stage2 cfg ext fs := by
          rw [andThen_fs_of_none _ _ h2.1, f1]
          rfl
        rw [f2] at h3
        have f3 : (((({ fs := makedirsStep fs, evs := [], err := none } : RunResult).andThen
            (ensure_corpus cfg ext)).andThen (generate_queries cfg ext)).andThen
            (mine_negatives cfg ext)).fs = stage3 cfg ext fs := by
          rw [andThen_fs_of_none _ _ h3.1, f2]
          rfl
        rw [f3] at h4
        have f4 : ((((({ fs := makedirsStep fs, evs := [], err := none } : RunResult).andThen
            (ensure_corpus cfg ext)).andThen (generate_queries cfg ext)).andThen
            (mine_negatives cfg ext)).andThen (pseudo_label cfg ext)).fs =
            stage4 cfg ext fs := by
          rw [andThen_fs_of_none _ _ h4.1, f3]
          rfl
        rw [f4] at h5
        have f5 : (((((({ fs := makedirsStep fs, evs := [], err := none } : RunResult).andThen
            (ensure_corpus cfg ext)).andThen (generate_queries cfg ext)).andThen
            (mine_negatives cfg ext)).andThen (pseudo_label cfg ext)).andThen
            (train_stage cfg ext)).fs = stage5 cfg ext fs := by
          rw [andThen_fs_of_none _ _ h5.1, f4]
          rfl
        rw [f5] at h6
        refine ⟨h1.2, ensure_corpus_post cfg ext (makedirsStep fs) h1.2,
          h2.2, (generate_queries_post cfg ext (stage1 cfg ext fs) h2.2).1,
          (generate_queries_post cfg ext (stage1 cfg ext fs) h2.2).2,
          h3.2, mine_negatives_post cfg ext (stage2 cfg ext fs) h3.2,
          pseudo_label_post cfg ext (stage3 cfg ext fs),
          train_stage_post cfg ext (stage4 cfg ext fs), ?_⟩
        rw [train_eq_chain cfg ext fs hp hev]
        rw [andThen_evs_of_none _ _ h6.1, andThen_evs_of_none _ _ h5.1,
          andThen_evs_of_none _ _ h4.1, andThen_evs_of_none _ _ h3.1,
          andThen_evs_of_none _ _ h2.1, andThen_evs_of_none _ _ h1.1]
        rw [f1, f2, f3, f4, f5]
        simp [List.append_assoc]

/-- C8, witness: a concrete error-free run from a fresh directory has a
rank-sorted trace, an error-free ensure-corpus step, and the corpus in
place before generation starts. -/
theorem C8_witness :
    List.Pairwise (fun a c => stageRank a < stageRank c) (train cfgEx extEx fsNoCorpus).evs
      ∧ (ensure_corpus cfgEx extEx (makedirsStep fsNoCorpus)).err = none
      ∧ hasFile (stage1 cfgEx extEx fsNoCorpus).genDir "corpus.jsonl" = true :=
  ⟨(C8_sequential_pipeline cfgEx extEx fsNoCorpus).1,
    ((C8_sequential_pipeline cfgEx extEx fsNoCorpus).2 (by decide)).1,
    ((C8_sequential_pipeline cfgEx extEx fsNoCorpus).2 (by decide)).2.1⟩

/-! ## The training data loader (train.py, lines 102-104) -/

/-- Modelled from the spec (section 4.3): the Training Example Assembler
(`GenerativePseudoLabelingDataset`, whose code lives in `gpl/toolkit`,
outside the inspected source) yields exactly one training example per
persisted label row, in the persisted row order, resolving each row
against the text tables. -/
def assemble {α β : Type} (resolve : α → β) (rows : List α) : List β :=
  rows.map resolve

/-- The constructor arguments of the `torch.utils.data.DataLoader` call at
line 104 of `train.py`. -/
structure DataLoaderArgs where
  shuffle : Bool
  batch_size : Nat
  drop_last : Bool
deriving DecidableEq, Repr

/-- Line 104: `DataLoader(train_dataset, shuffle=False,
batch_size=batch_size_gpl, drop_last=True)`. -/
def gplDataLoaderArgs (batch_size_gpl : Nat) : DataLoaderArgs :=
  { shuffle := false, batch_size := batch_size_gpl, drop_last := true }

/-- Modelled from the PyTorch `DataLoader` contract with `shuffle=False`
and `drop_last=True`: consecutive chunks of the dataset in dataset order,
with the final partial chunk dropped. -/
def noShuffleBatches {α : Type} (bsz : Nat) (rows : List α) : List (List α) :=
  if bsz = 0 ∨ rows.length < bsz then []
  else rows.take bsz :: noShuffleBatches bsz (rows.drop bsz)
termination_by rows.length
decreasing_by
  rename_i h
  push_neg at h
  simp only [List.length_drop]
  omega

theorem noShuffleBatches_flatten_initial {α : Type} (bsz : Nat) :
    ∀ (n : Nat) (l : List α), l.length ≤ n →
      ∃ t, (noShuffleBatches bsz l).flatten ++ t = l := by
  intro n
  induction n with
  | zero =>
    intro l hl
    have hnil : l = [] := List.eq_nil_of_length_eq_zero (Nat.le_zero.1 hl)
    subst hnil
    refine ⟨[], ?_⟩
    unfold noShuffleBatches
    rcases Nat.eq_zero_or_pos bsz with hb | hb
    · simp [hb]
    · simp [Nat.not_eq_zero_of_lt hb, hb]
  | succ n ih =>
    intro l hl
    unfold noShuffleBatches
    split
    · exact ⟨l, by simp⟩
    · rename_i h
      push_neg at h
      obtain ⟨hb, hlen⟩ := h
      obtain ⟨t, ht⟩ := ih (l.drop bsz) (by simp only [List.length_drop]; omega)
      refine ⟨t, ?_⟩
      rw [List.flatten_cons, List.append_assoc, ht, List.take_append_drop]

/-- C4: the fine-tuning loop's example stream preserves the persisted row
order of `gpl-training-data.tsv`: the data loader is constructed with
shuffling disabled (and drop-last enabled), the assembler emits one
example per row in row order, and the concatenation of the batches fed to
training is an initial segment of that assembled stream — no reordering
anywhere between reading the label file and feeding batches. -/
theorem C4_no_shuffle_order_preserved {α β : Type} (resolve : α → β) (rows : List α)
    (bsz : Nat) :
    (gplDataLoaderArgs bsz).shuffle = false
      ∧ (gplDataLoaderArgs bsz).drop_last = true
      ∧ assemble resolve rows = rows.map resolve
      ∧ ∃ t, (noShuffleBatches bsz (assemble resolve rows)).flatten ++ t =
          assemble resolve rows :=
  ⟨rfl, rfl, rfl,
    noShuffleBatches_flatten_initial bsz (assemble resolve rows).length
      (assemble resolve rows) (Nat.le_refl _)⟩

end GPL
